import Mathlib

/-!
Verification development for the ip-camera-viewer stream/record orchestration
core (`src/recorder.js` RecorderManager and CameraManager, `src/scheduler.js`
SchedulerManager).  The JavaScript source is shallowly embedded: pure helpers
become Lean functions, the event-driven session objects become explicit state
types with step functions over the events their callbacks react to, and
filesystem knowledge is passed in explicitly (the set of existing files).
String primitives are implemented structurally over `List Char` so that every
definition evaluates by kernel reduction on concrete inputs.
-/

/-! ## String primitives (structural models of the JS string operations) -/

/-- Split a character list at every occurrence of a separator character
(semantics of JS `split` with a one-character separator). -/
def splitChar (sep : Char) : List Char → List (List Char)
  | [] => [[]]
  | c :: rest =>
    match splitChar sep rest with
    | [] => [[]]
    | g :: gs => if c = sep then [] :: g :: gs else (c :: g) :: gs

/-- Break a character list at the first occurrence of a separator character,
returning the parts before and after it, or `none` if it does not occur. -/
def breakOnChar (sep : Char) : List Char → Option (List Char × List Char)
  | [] => none
  | c :: rest =>
    if c = sep then some ([], rest)
    else (breakOnChar sep rest).map fun p => (c :: p.1, p.2)

/-- Whether `pat` occurs as a contiguous substring of the character list. -/
def containsList (pat : List Char) : List Char → Bool
  | [] => pat.isEmpty
  | c :: rest => pat.isPrefixOf (c :: rest) || containsList pat rest

/-- ASCII lower-casing of one character (model of the `i` regex flag /
`toLowerCase`). -/
def lowerChar (c : Char) : Char :=
  if 65 ≤ c.toNat ∧ c.toNat ≤ 90 then Char.ofNat (c.toNat + 32) else c

/-- Model of JS `String.prototype.startsWith`. -/
def strStartsWith (s pre : String) : Bool :=
  pre.data.isPrefixOf s.data

/-! ## Path model (Node `path.join` / `path.resolve` on POSIX-style strings) -/

/-- Model of POSIX path normalisation: process segments left to right with a
stack; `".."` pops the last kept segment (staying at the root when empty, as
Node does for absolute paths), `"."` and empty segments vanish. -/
def normSegs : List (List Char) → List (List Char) → List (List Char)
  | acc, [] => acc.reverse
  | acc, s :: rest =>
    if s = [] ∨ s = ['.'] then normSegs acc rest
    else if s = ['.', '.'] then normSegs (acc.drop 1) rest
    else normSegs (s :: acc) rest

/-- Interleave path segments with `/`. -/
def joinSegsChar : List (List Char) → List Char
  | [] => []
  | [s] => s
  | s :: rest => s ++ '/' :: joinSegsChar rest

/-- Model of Node `path.resolve` applied to an absolute path: split on `/`
and normalise.  (All directory roots in the program are produced by
`path.resolve`, so every path reaching this function is absolute.) -/
def pathResolve (p : String) : String :=
  String.mk ('/' :: joinSegsChar (normSegs [] (splitChar '/' p.data)))

/-- Model of Node `path.join(dir, file)` for an absolute `dir`: concatenate
with a separator and normalise (Node's `join` normalises `..` segments). -/
def pathJoin (dir file : String) : String :=
  pathResolve (dir ++ "/" ++ file)

/-- Whether an (already resolved) path lies inside the directory `dir`:
equal to the resolved directory or extending it past a path separator. -/
def pathInsideDir (dir p : String) : Bool :=
  decide (p = pathResolve dir) || strStartsWith p (pathResolve dir ++ "/")

/-! ## `deleteRecording` (RecorderManager, recorder.js lines 252-267) -/

inductive DeleteResult where
  | invalidFilename : DeleteResult
  | notFound : DeleteResult
  | deleted : String → DeleteResult
  deriving DecidableEq, Repr

/-- Embedding of `RecorderManager.deleteRecording(filename)`.  The filesystem
is supplied as the list of existing absolute file paths; `.deleted p` records
that `fs.unlinkSync` was invoked on `p`. -/
def deleteRecording (recordingsDir : String) (existingFiles : List String)
    (filename : String) : DeleteResult :=
  let filePath := pathJoin recordingsDir filename
  let resolved := pathResolve filePath
  if ! (strStartsWith resolved (pathResolve recordingsDir)) then .invalidFilename
  else if ! (existingFiles.any fun f => decide (f = filePath)) then .notFound
  else .deleted filePath

/-! ## URL helpers (`_deriveAudioUrl`, `_isMjpeg`) -/

/-- Hierarchical URL as used by the program: `scheme://authority/path?query`,
where `authority` keeps any embedded `user:pass@host:port` verbatim. -/
structure ParsedUrl where
  scheme : String
  authority : String
  pathname : String
  query : String
  deriving DecidableEq, Repr

/-- Break a character list at the first occurrence of `://`. -/
def breakSchemeSep : List Char → Option (List Char × List Char)
  | [] => none
  | ':' :: '/' :: '/' :: rest => some ([], rest)
  | c :: rest => (breakSchemeSep rest).map fun p => (c :: p.1, p.2)

/-- Model of the WHATWG `new URL` constructor restricted to the hierarchical
`scheme://authority/path?query` shapes the program feeds it (http, https,
rtsp camera URLs); any string without a `scheme://` prefix is unparseable,
mirroring the constructor throwing. -/
def parseUrl (s : String) : Option ParsedUrl :=
  match breakSchemeSep s.data with
  | none => none
  | some (scheme, rest) =>
    if scheme.isEmpty || rest.isEmpty then none
    else
      let (authority, pathAndQuery) :=
        match breakOnChar '/' rest with
        | none => (rest, ['/'])
        | some (a, p) => (a, '/' :: p)
      match breakOnChar '?' pathAndQuery with
      | none => some ⟨String.mk scheme, String.mk authority, String.mk pathAndQuery, ""⟩
      | some (p, q) =>
        some ⟨String.mk scheme, String.mk authority, String.mk p, String.mk ('?' :: q)⟩

/-- Serialisation matching `URL.prototype.toString` on the shapes above. -/
def ParsedUrl.toUrlString (u : ParsedUrl) : String :=
  u.scheme ++ "://" ++ u.authority ++ u.pathname ++ u.query

/-- Embedding of `_deriveAudioUrl(videoUrl)` (identical in both managers):
parse, rewrite `pathname` to `/audio.cgi`, re-serialise; `none` when the
source is not a parseable URL. -/
def deriveAudioUrl (videoUrl : String) : Option String :=
  (parseUrl videoUrl).map fun u => ParsedUrl.toUrlString { u with pathname := "/audio.cgi" }

/-- Embedding of `CameraManager._isMjpeg(url)`:
`url.match(/mjpg|mjpeg/i) || url.startsWith('http://')`. -/
def isMjpeg (url : String) : Bool :=
  containsList "mjpg".data (url.data.map lowerChar)
    || containsList "mjpeg".data (url.data.map lowerChar)
    || strStartsWith url "http://"

/-! ## CameraManager session state machine (recorder.js lines 288-522) -/

inductive CamStatus where
  | idle | connecting | streaming | error
  deriving DecidableEq, Repr

/-- Mutable fields of `CameraManager`: the process handle is abstracted to
presence (`true` = non-null), the health-check interval to an armed flag. -/
structure CamState where
  process : Bool
  status : CamStatus
  currentUrl : Option String
  audioUrl : Option String
  healthCheck : Bool
  deriving DecidableEq, Repr

/-- Constructor state of `CameraManager`. -/
def camInit : CamState :=
  { process := false, status := .idle, currentUrl := none, audioUrl := none
    healthCheck := false }

/-- Observable effects of one camera operation, in program order: emitted
`status` events (as `_setStatus` emits them), promise settlements, spawn and
kill of the transcoder process, and the dedicated `healthcheck` event. -/
inductive CamOut where
  | statusEv (s : CamStatus) (error : Option String) (url : Option String)
  | resolvedStream (streamType : String)
  | rejectedAlready
  | rejectedInvalid
  | rejectedFailed (msg : String)
  | spawned
  | killed
  | healthEv (reason : String)
  deriving DecidableEq, Repr

/-- Events the camera session reacts to: the synchronous part of
`startStream` (with `spawnOk` modelling whether the transcoder constructor
throws), the transcoder callbacks `start`/`error`/`end`, `stopStream`, and
`_handleUnreachable` (a health-check probe timing out or erroring). -/
inductive CamEvent where
  | startStream (url : String) (spawnOk : Bool)
  | procStart
  | procError (msg : String)
  | procEnd
  | stopStream
  | unreachable (reason : String)
  deriving DecidableEq, Repr

/-- Embedding of the synchronous body of `CameraManager.startStream(url)`. -/
def camStartStream (st : CamState) (url : String) (spawnOk : Bool) :
    CamState × List CamOut :=
  if st.status = .streaming then (st, [.rejectedAlready])
  else if url = "" then (st, [.rejectedInvalid])
  else
    let st1 := { st with currentUrl := some url, audioUrl := deriveAudioUrl url }
    if isMjpeg url then
      ({ st1 with process := false, status := .streaming, healthCheck := true },
       [.statusEv .streaming none (some url), .resolvedStream "mjpeg"])
    else if spawnOk then
      ({ st1 with status := .connecting, process := true },
       [.statusEv .connecting none (some url), .spawned])
    else
      ({ st1 with status := .error, process := false, currentUrl := none
                  audioUrl := none },
       [.statusEv .connecting none (some url),
        .statusEv .error (some "spawn failure") none,
        .rejectedFailed "spawn failure"])

/-- Embedding of the HLS transcoder `start` callback. -/
def camProcStart (st : CamState) : CamState × List CamOut :=
  ({ st with status := .streaming, healthCheck := true },
   [.statusEv .streaming none st.currentUrl, .resolvedStream "hls"])

/-- Embedding of the HLS transcoder `error` callback. -/
def camProcError (st : CamState) (msg : String) : CamState × List CamOut :=
  let wasConnecting := st.status = .connecting
  ({ st with process := false, currentUrl := none, audioUrl := none
             healthCheck := false, status := .error },
   [.statusEv .error (some msg) none]
     ++ if wasConnecting then [.rejectedFailed msg] else [])

/-- Embedding of the HLS transcoder `end` callback. -/
def camProcEnd (st : CamState) : CamState × List CamOut :=
  ({ st with process := false, currentUrl := none, audioUrl := none
             healthCheck := false, status := .idle },
   [.statusEv .idle none none])

/-- Embedding of `CameraManager.stopStream()`. -/
def camStopStream (st : CamState) : CamState × List CamOut :=
  if st.status ≠ .streaming ∧ st.process = false then (st, [])
  else
    (camInit,
     (if st.process then [.killed] else []) ++ [.statusEv .idle none none])

/-- Embedding of `CameraManager._handleUnreachable(reason)`: the handler a
health-check probe timeout or error invokes. -/
def camUnreachable (st : CamState) (reason : String) : CamState × List CamOut :=
  if st.status ≠ .streaming then (st, [])
  else
    (camInit,
     (if st.process then [.killed] else [])
       ++ [.statusEv .idle none none, .healthEv reason])

/-- One step of the camera session. -/
def camStep (st : CamState) : CamEvent → CamState × List CamOut
  | .startStream url spawnOk => camStartStream st url spawnOk
  | .procStart => camProcStart st
  | .procError msg => camProcError st msg
  | .procEnd => camProcEnd st
  | .stopStream => camStopStream st
  | .unreachable reason => camUnreachable st reason

/-- The camera state reached from the constructor state by a list of events. -/
def camRun (evs : List CamEvent) : CamState :=
  evs.foldl (fun s e => (camStep s e).1) camInit

/-! ## RecorderManager: `startRecording` path decision (recorder.js 47-74) -/

/-- Options object for `startRecording`; `none` in a field models the JS
property being absent/undefined. -/
structure RecOptions where
  includeAudio : Option Bool
  audioUrl : Option String
  deriving DecidableEq, Repr

/-- The effective audio URL
`(options && options.audioUrl) || this._deriveAudioUrl(cameraUrl)`:
an explicit non-empty `options.audioUrl` wins, otherwise derivation. -/
def effectiveAudioUrl (cameraUrl : String) (options : Option RecOptions) :
    Option String :=
  match options with
  | none => deriveAudioUrl cameraUrl
  | some o =>
    match o.audioUrl with
    | none => deriveAudioUrl cameraUrl
    | some a => if a = "" then deriveAudioUrl cameraUrl else some a

/-- The flag `!!(options && options.includeAudio !== false && audioUrl)`:
false whenever `options` itself is absent. -/
def includeAudioFlag (cameraUrl : String) (options : Option RecOptions) : Bool :=
  match options with
  | none => false
  | some o =>
    decide (o.includeAudio ≠ some false)
      && (effectiveAudioUrl cameraUrl options).isSome

/-- Which transcoder invocation `startRecording` selects. -/
inductive RecPath where
  | dualInput (videoUrl audioUrl : String)
  | videoOnly (videoUrl : String)
  deriving DecidableEq, Repr

/-- Embedding of the branch in `startRecording`:
`if (includeAudio && audioUrl) _startDualInputRecording else _startVideoOnlyRecording`. -/
def startRecordingPath (cameraUrl : String) (options : Option RecOptions) : RecPath :=
  match effectiveAudioUrl cameraUrl options, includeAudioFlag cameraUrl options with
  | some a, true => .dualInput cameraUrl a
  | _, _ => .videoOnly cameraUrl

/-- The `audio` field of the result each path resolves with
(`audio: true` in `_startDualInputRecording`, `audio: false` in
`_startVideoOnlyRecording`). -/
def recResultAudio : RecPath → Bool
  | .dualInput _ _ => true
  | .videoOnly _ => false

/-- Argument list built by `_startDualInputRecording` (recorder.js 78-93),
including the RTSP options `unshift`. -/
def dualInputArgs (videoUrl audioUrl outputPath : String) : List String :=
  (if strStartsWith videoUrl "rtsp://"
   then ["-rtsp_transport", "tcp", "-timeout", "5000000"] else [])
    ++ ["-i", videoUrl, "-i", audioUrl,
        "-af", "afftdn=nf=-25,highpass=f=200,lowpass=f=3000",
        "-c:v", "libx264", "-preset", "ultrafast",
        "-c:a", "aac", "-b:a", "128k",
        "-movflags", "+faststart", "-y", outputPath]

/-- Arguments the fluent builder in `_startVideoOnlyRecording`
(recorder.js 150-163) passes to the transcoder: input options, the single
input, output options, the output path. -/
def videoOnlyArgs (cameraUrl outputPath : String) : List String :=
  (if strStartsWith cameraUrl "rtsp://"
   then ["-rtsp_transport", "tcp", "-timeout", "5000000"] else [])
    ++ ["-i", cameraUrl, "-c:v", "libx264", "-preset", "ultrafast",
        "-c:a", "aac", "-movflags", "+faststart", outputPath]

/-- The spawned argument list of whichever path was selected. -/
def spawnedArgs (p : RecPath) (outputPath : String) : List String :=
  match p with
  | .dualInput v a => dualInputArgs v a outputPath
  | .videoOnly v => videoOnlyArgs v outputPath

/-! ## Dual-input recording process lifetime (recorder.js 95-137) -/

inductive RecStatus where
  | idle | recording | error
  deriving DecidableEq, Repr

/-- Mutable fields of `RecorderManager` relevant to one dual-input process
lifetime, plus the closure-local `started` flag. -/
structure RecState where
  process : Bool
  status : RecStatus
  currentUrl : Option String
  currentFile : Option String
  startTime : Option Nat
  started : Bool
  deriving DecidableEq, Repr

/-- Observable effects of the dual-input handlers. -/
inductive RecOut where
  | statusEv (s : RecStatus) (error : Option String) (file url : Option String)
  | resolvedRec (audio : Bool)
  | rejectedRec (msg : String)
  deriving DecidableEq, Repr

/-- Events a spawned dual-input process can deliver: stderr data completing
the ready marker (`Output #0` / `Press [q]`), the `error` event, and the
`close` event. -/
inductive RecEvent where
  | stderrReady (now : Nat)
  | procError (msg : String)
  | procClose (code : Int)
  deriving DecidableEq, Repr

/-- State right after `spawn` in `_startDualInputRecording`: handle stored,
url and filename already set by `startRecording`, not yet `recording`. -/
def recSpawnState (url file : String) : RecState :=
  { process := true, status := .idle, currentUrl := some url
    currentFile := some file, startTime := none, started := false }

/-- One event of the dual-input handlers (recorder.js 101-137). -/
def recDualStep (st : RecState) : RecEvent → RecState × List RecOut
  | .stderrReady now =>
    if st.started then (st, [])
    else
      ({ st with started := true, startTime := some now, status := .recording },
       [.statusEv .recording none st.currentFile st.currentUrl,
        .resolvedRec true])
  | .procError msg =>
    ({ st with process := false, currentUrl := none, currentFile := none
               startTime := none, status := .error },
     [.statusEv .error (some msg) none none]
       ++ if st.started then [] else [.rejectedRec msg])
  | .procClose _ =>
    ({ st with process := false, currentUrl := none, currentFile := none
               startTime := none, status := .idle },
     [.statusEv .idle none none none]
       ++ if st.started then [] else [.rejectedRec "exited"])

/-- Run the dual-input handlers over a list of process events, collecting
every emitted effect in order. -/
def recDualRun : RecState → List RecEvent → RecState × List RecOut
  | st, [] => (st, [])
  | st, e :: rest =>
    let (st1, outs) := recDualStep st e
    let (st2, rest') := recDualRun st1 rest
    (st2, outs ++ rest')

/-- Whether an effect is a terminal status event (`idle` or `error`). -/
def isTerminalStatusEv : RecOut → Bool
  | .statusEv .idle _ _ _ => true
  | .statusEv .error _ _ _ => true
  | _ => false

/-! ## SchedulerManager (scheduler.js) -/

/-- A calendar instant: days since a Sunday epoch plus milliseconds within
the day.  DST is not modelled; `new Date` calendar arithmetic on day offsets
becomes plain day addition. -/
structure Instant where
  day : Nat
  msOfDay : Nat
  deriving DecidableEq, Repr

/-- Total milliseconds, the order `Date` comparison uses. -/
def Instant.toMs (i : Instant) : Nat :=
  i.day * 86400000 + i.msOfDay

/-- The persisted schedule record (scheduler.js 109-119). -/
structure Schedule where
  id : String
  name : String
  cameraUrl : String
  startTime : String
  durationMinutes : Nat
  days : List String
  enabled : Bool
  deriving DecidableEq, Repr

/-- Parse a decimal digit. -/
def charDigit (c : Char) : Option Nat :=
  if 48 ≤ c.toNat ∧ c.toNat ≤ 57 then some (c.toNat - 48) else none

/-- Parse a non-empty run of decimal digits. -/
def natOfChars : List Char → Option Nat
  | [] => none
  | cs => cs.foldl (fun acc c => do return (← acc) * 10 + (← charDigit c)) (some 0)

/-- Model of `schedule.startTime.split(':').map(Number)` destructured into
hour and minute; `none` when the string is not two numeric fields (in JS the
resulting NaN makes every candidate an Invalid Date, so nothing fires). -/
def parseStartTime (s : String) : Option (Nat × Nat) :=
  match splitChar ':' s.data with
  | [h, m] => do return (← natOfChars h, ← natOfChars m)
  | _ => none

/-- The weekday-name table `['sun','mon','tue','wed','thu','fri','sat']`
indexed by `getDay()`. -/
def dayName (d : Nat) : String :=
  match d % 7 with
  | 0 => "sun"
  | 1 => "mon"
  | 2 => "tue"
  | 3 => "wed"
  | 4 => "thu"
  | 5 => "fri"
  | _ => "sat"

/-- Embedding of `SchedulerManager._getNextOccurrence(schedule, fromDate)`
(scheduler.js 56-76): for each day offset 0..6 build the candidate at the
schedule's hour:minute, skip it when at or before `now` or when its weekday
is excluded by a non-empty day list, and return the first survivor. -/
def getNextOccurrence (sched : Schedule) (now : Instant) : Option Instant :=
  match parseStartTime sched.startTime with
  | none => none
  | some (h, m) =>
    (List.range 7).findSome? fun dayOffset =>
      let candidate : Instant := ⟨now.day + dayOffset, (h * 60 + m) * 60000⟩
      if candidate.toMs ≤ now.toMs then none
      else if sched.days ≠ []
          ∧ ¬ (sched.days.any fun d => decide (d = dayName candidate.day)) then none
      else some candidate

/-- The candidate instant the algorithm builds for a day offset. -/
def candidateAt (now : Instant) (h m dayOffset : Nat) : Instant :=
  ⟨now.day + dayOffset, (h * 60 + m) * 60000⟩

/-- Spec-side restatement of the `_nextOccurrence` acceptance rule: a
candidate survives when it is strictly after `fromInstant` and its weekday
is allowed (an empty day set allows every weekday). -/
def specAccepts (sched : Schedule) (now : Instant) (h m dayOffset : Nat) : Bool :=
  decide (now.toMs < (candidateAt now h m dayOffset).toMs)
    && (sched.days.isEmpty
        || sched.days.any fun d => decide (d = dayName (candidateAt now h m dayOffset).day))

/-- Spec-side restatement of `_nextOccurrence`: the first accepted candidate
in day-offset order over offsets 0..6, or none. -/
def nextOccurrenceSpec (sched : Schedule) (now : Instant) : Option Instant :=
  match parseStartTime sched.startTime with
  | none => none
  | some (h, m) =>
    ((List.range 7).find? (specAccepts sched now h m)).map (candidateAt now h m)

/-- Embedding of the recording start in `SchedulerManager._executeSchedule`
(scheduler.js 84): `this.recorder.startRecording(cameraUrl)` — called with
the camera URL only, no options argument. -/
def executeScheduleRecPath (sched : Schedule) : RecPath :=
  startRecordingPath sched.cameraUrl none

/-- The schedule of the spec's scenarios: start 10:00, Wednesdays only. -/
def wedSchedule : Schedule :=
  { id := "s1", name := "wed-rec", cameraUrl := "rtsp://cam/s", startTime := "10:00"
    durationMinutes := 60, days := ["wed"], enabled := true }

/-- The fixed flag strings of the video-only transcoder invocation. -/
def recFixedFlags : List String :=
  ["-rtsp_transport", "tcp", "-timeout", "5000000", "-i", "-c:v", "libx264",
   "-preset", "ultrafast", "-c:a", "aac", "-movflags", "+faststart"]

/-- The C5 state invariant: the process handle is non-null only while
`connecting` or `streaming` with a non-MJPEG-classified source URL. -/
def camProcInv (st : CamState) : Prop :=
  st.process = true →
    (st.status = .connecting ∨ st.status = .streaming)
    ∧ ∃ u, st.currentUrl = some u ∧ isMjpeg u = false

/-- The C7 state invariant that actually holds: the stored audio URL is
always exactly the derivation from the stored source URL. -/
def camAudioInv (st : CamState) : Prop :=
  st.audioUrl = st.currentUrl.bind deriveAudioUrl

/-- Whether a camera effect is the dedicated health-check-failed event. -/
def isHealthOut : CamOut → Bool
  | .healthEv _ => true
  | _ => false

/-- A concrete streaming HLS session state. -/
def streamingState : CamState :=
  { process := true, status := .streaming, currentUrl := some "rtsp://cam/live"
    audioUrl := deriveAudioUrl "rtsp://cam/live", healthCheck := true }

/-! ## Helper lemmas -/

/-- A `findSome?` whose body is a guarded `some` is a `find?` then `map`. -/
theorem findSome_guarded {α β : Type} (g : α → β) (q : α → Bool) (l : List α) :
    (l.findSome? fun a => if q a then some (g a) else none)
      = (l.find? q).map g := by
  induction l with
  | nil => rfl
  | cons a l ih =>
    by_cases h : q a = true <;>
      simp [List.findSome?_cons, List.find?_cons, h, ih]

/-- Every camera step preserves the C5 process invariant. -/
theorem camStep_procInv (st : CamState) (e : CamEvent) (h : camProcInv st) :
    camProcInv (camStep st e).1 := by
  cases e with
  | startStream url spawnOk =>
    by_cases hs : st.status = .streaming
    · simpa [camStep, camStartStream, hs] using h
    · by_cases hu : url = ""
      · simpa [camStep, camStartStream, hs, hu] using h
      · by_cases hm : isMjpeg url = true
        · intro hp
          simp [camStep, camStartStream, hs, hu, hm] at hp
        · by_cases hk : spawnOk = true
          · intro _
            refine ⟨Or.inl ?_, url, ?_, ?_⟩ <;>
              simp [camStep, camStartStream, hs, hu, hm, hk]
          · intro hp
            simp [camStep, camStartStream, hs, hu, hm, hk] at hp
  | procStart =>
    intro hp
    simp only [camStep, camProcStart] at hp ⊢
    exact ⟨Or.inr trivial, (h hp).2⟩
  | procError msg =>
    intro hp
    simp [camStep, camProcError] at hp
  | procEnd =>
    intro hp
    simp [camStep, camProcEnd] at hp
  | stopStream =>
    simp only [camStep, camStopStream]
    split
    · exact h
    · intro hp
      simp [camInit] at hp
  | unreachable reason =>
    simp only [camStep, camUnreachable]
    split
    · exact h
    · intro hp
      simp [camInit] at hp

/-- Every camera step preserves the C7 audio-derivation invariant. -/
theorem camStep_audioInv (st : CamState) (e : CamEvent) (h : camAudioInv st) :
    camAudioInv (camStep st e).1 := by
  cases e with
  | startStream url spawnOk =>
    by_cases hs : st.status = .streaming
    · simpa [camStep, camStartStream, hs] using h
    · by_cases hu : url = ""
      · simpa [camStep, camStartStream, hs, hu] using h
      · by_cases hm : isMjpeg url = true
        · simp [camStep, camStartStream, hs, hu, hm, camAudioInv]
        · by_cases hk : spawnOk = true <;>
            simp [camStep, camStartStream, hs, hu, hm, hk, camAudioInv]
  | procStart =>
    simpa [camStep, camProcStart, camAudioInv] using h
  | procError msg =>
    simp [camStep, camProcError, camAudioInv]
  | procEnd =>
    simp [camStep, camProcEnd, camAudioInv]
  | stopStream =>
    simp only [camStep, camStopStream]
    split
    · exact h
    · simp [camInit, camAudioInv]
  | unreachable reason =>
    simp only [camStep, camUnreachable]
    split
    · exact h
    · simp [camInit, camAudioInv]

/-- The process invariant holds in every reachable camera state. -/
theorem camRun_procInv (evs : List CamEvent) : camProcInv (camRun evs) := by
  suffices h : ∀ st, camProcInv st →
      camProcInv (evs.foldl (fun s e => (camStep s e).1) st) by
    refine h camInit ?_
    intro hp
    simp [camInit] at hp
  induction evs with
  | nil => exact fun st h => h
  | cons e rest ih => exact fun st h => ih _ (camStep_procInv st e h)

/-- The audio-derivation invariant holds in every reachable camera state. -/
theorem camRun_audioInv (evs : List CamEvent) : camAudioInv (camRun evs) := by
  suffices h : ∀ st, camAudioInv st →
      camAudioInv (evs.foldl (fun s e => (camStep s e).1) st) by
    exact h camInit rfl
  induction evs with
  | nil => exact fun st h => h
  | cons e rest ih => exact fun st h => ih _ (camStep_audioInv st e h)

/-! ## Claim theorems -/

/-- C1: the claim requires every escaping filename to be rejected before any
deletion, but the guard is missing a separator-boundary check: the filename
`../recordings-evil/pwn.mp4` resolves outside the recordings directory, yet
`deleteRecording` passes the prefix guard and unlinks the escaped file. -/
theorem C1_escaping_filename_gets_deleted :
    deleteRecording "/app/recordings" ["/app/recordings-evil/pwn.mp4"]
        "../recordings-evil/pwn.mp4"
      = .deleted "/app/recordings-evil/pwn.mp4"
    ∧ pathInsideDir "/app/recordings" "/app/recordings-evil/pwn.mp4" = false := by
  decide

/-- C9: the traversal guard in `deleteRecording` is a plain string-prefix
test on the canonicalized path: every filename whose resolved path merely
begins with the recordings directory string passes the guard, including the
sibling directory `/app/recordings-evil` reached via
`../recordings-evil/x.mp4`, which the prefix test accepts although the
resolved path escapes the directory. -/
theorem C9_guard_is_plain_prefix_test :
    (∀ (dir : String) (files : List String) (filename : String),
        strStartsWith (pathResolve (pathJoin dir filename)) (pathResolve dir) = true →
          deleteRecording dir files filename ≠ .invalidFilename)
    ∧ strStartsWith (pathResolve (pathJoin "/app/recordings" "../recordings-evil/x.mp4"))
        (pathResolve "/app/recordings") = true
    ∧ pathInsideDir "/app/recordings"
        (pathResolve (pathJoin "/app/recordings" "../recordings-evil/x.mp4")) = false := by
  refine ⟨?_, by decide, by decide⟩
  intro dir files filename h
  simp only [deleteRecording, h, Bool.not_true, Bool.false_eq_true, if_false]
  split <;> simp

/-- Witness for C9 at the sibling-directory escape. -/
theorem C9_guard_is_plain_prefix_test_witness :
    deleteRecording "/app/recordings" [] "../recordings-evil/x.mp4"
      ≠ .invalidFilename :=
  C9_guard_is_plain_prefix_test.1 "/app/recordings" [] "../recordings-evil/x.mp4"
    (by decide)

/-- C2 (amended): `startStream` rejects with AlreadyActive exactly when the
status is `streaming` — a call while the status is `connecting` is not
rejected — and rejects with InvalidArgument when the url is empty; both
rejections leave the session state untouched. -/
theorem C2_startStream_guards (st : CamState) (url : String) (spawnOk : Bool) :
    (st.status = .streaming →
      camStartStream st url spawnOk = (st, [.rejectedAlready]))
    ∧ (st.status ≠ .streaming → url = "" →
      camStartStream st url spawnOk = (st, [.rejectedInvalid])) := by
  constructor
  · intro h
    simp [camStartStream, h]
  · intro h h'
    simp [camStartStream, h, h']

/-- Witness for C2 at a streaming state and at an empty url. -/
theorem C2_startStream_guards_witness :
    camStartStream { camInit with status := .streaming } "rtsp://cam/live" true
      = ({ camInit with status := .streaming }, [.rejectedAlready])
    ∧ camStartStream camInit "" true = (camInit, [.rejectedInvalid]) :=
  ⟨(C2_startStream_guards { camInit with status := .streaming } "rtsp://cam/live" true).1
      rfl,
   (C2_startStream_guards camInit "" true).2 (by decide) rfl⟩

/-- C2 counterexample: after a transcode-path start the session is
`connecting`, yet a second `startStream` call is not rejected with
AlreadyActive — it proceeds and overwrites the first call's session url. -/
theorem C2_counterexample_connecting_not_rejected :
    (camRun [.startStream "rtsp://cam1/live" true]).status = .connecting
    ∧ .rejectedAlready
        ∉ (camStartStream (camRun [.startStream "rtsp://cam1/live" true])
            "rtsp://cam2/live" true).2
    ∧ (camStartStream (camRun [.startStream "rtsp://cam1/live" true])
        "rtsp://cam2/live" true).1.currentUrl = some "rtsp://cam2/live" := by
  decide

/-- C3 (amended): when an options object is passed with `includeAudio` unset
and no `audioUrl` override, a derivable audio URL selects the dual-input
path, the result carries `audio: true` and the audio URL appears among the
spawned arguments; when the options argument itself is absent the video-only
path is taken; with `includeAudio === false` the video-only path is taken,
the result carries `audio: false`, and every spawned argument is the video
URL, the output path or a fixed flag — no audio URL is referenced. -/
theorem C3_audio_path_selection (url a out : String) (o : RecOptions) :
    (o.includeAudio = none → o.audioUrl = none → deriveAudioUrl url = some a →
      startRecordingPath url (some o) = .dualInput url a
      ∧ recResultAudio (.dualInput url a) = true
      ∧ a ∈ spawnedArgs (.dualInput url a) out)
    ∧ startRecordingPath url none = .videoOnly url
    ∧ (o.includeAudio = some false →
      startRecordingPath url (some o) = .videoOnly url
      ∧ recResultAudio (.videoOnly url) = false
      ∧ ∀ x ∈ spawnedArgs (.videoOnly url) out, x = url ∨ x = out ∨ x ∈ recFixedFlags) := by
  refine ⟨?_, ?_, ?_⟩
  · intro h1 h2 h3
    refine ⟨?_, rfl, ?_⟩
    · simp [startRecordingPath, effectiveAudioUrl, includeAudioFlag, h1, h2, h3]
    · simp [spawnedArgs, dualInputArgs]
  · unfold startRecordingPath includeAudioFlag
    cases h : effectiveAudioUrl url none <;> simp [h]
  · intro h1
    refine ⟨?_, rfl, ?_⟩
    · simp [startRecordingPath, includeAudioFlag, h1]
    · intro x hx
      simp [spawnedArgs, videoOnlyArgs] at hx
      simp [recFixedFlags]
      tauto

/-- Witness for C3: concrete dual-input selection with includeAudio unset,
and video-only selection with includeAudio false. -/
theorem C3_audio_path_selection_witness :
    startRecordingPath "rtsp://cam:554/live" (some ⟨none, none⟩)
      = .dualInput "rtsp://cam:554/live" "rtsp://cam:554/audio.cgi"
    ∧ startRecordingPath "rtsp://cam:554/live" (some ⟨some false, none⟩)
      = .videoOnly "rtsp://cam:554/live" :=
  ⟨((C3_audio_path_selection "rtsp://cam:554/live" "rtsp://cam:554/audio.cgi"
      "/tmp/out.mp4" ⟨none, none⟩).1 rfl rfl (by decide)).1,
   ((C3_audio_path_selection "rtsp://cam:554/live" "rtsp://cam:554/audio.cgi"
      "/tmp/out.mp4" ⟨some false, none⟩).2.2 rfl).1⟩

/-- C3 counterexample: the camera URL has a derivable audio URL and
`options.includeAudio` is unset because the whole options argument is
absent — yet the video-only path is selected and the result carries
`audio: false`, not the dual-input path with `audio: true` the claim
requires for every such call. -/
theorem C3_counterexample_no_options_means_no_audio :
    deriveAudioUrl "rtsp://cam:554/live" = some "rtsp://cam:554/audio.cgi"
    ∧ startRecordingPath "rtsp://cam:554/live" none = .videoOnly "rtsp://cam:554/live"
    ∧ recResultAudio (startRecordingPath "rtsp://cam:554/live" none) = false := by
  decide

/-- C10: `_executeSchedule` calls `startRecording` with no options argument,
so every schedule-driven recording takes the video-only path and resolves
with `audio: false`, regardless of the schedule's camera URL. -/
theorem C10_schedule_recordings_are_video_only (sched : Schedule) :
    executeScheduleRecPath sched = .videoOnly sched.cameraUrl
    ∧ recResultAudio (executeScheduleRecPath sched) = false := by
  unfold executeScheduleRecPath startRecordingPath includeAudioFlag
  cases h : effectiveAudioUrl sched.cameraUrl none <;> simp [h, recResultAudio]

/-- C5: in every reachable camera-session state the process handle is
non-null only when the status is connecting or streaming and the current
source URL is not MJPEG-classified; and for any MJPEG-classified URL a
non-rejected `startStream` leaves a null process handle, moves the status
directly to streaming, and spawns no subprocess. -/
theorem C5_process_only_when_transcoding :
    (∀ evs : List CamEvent, camProcInv (camRun evs))
    ∧ ∀ (st : CamState) (url : String) (b : Bool),
        st.status ≠ .streaming → url ≠ "" → isMjpeg url = true →
          (camStartStream st url b).1.process = false
          ∧ (camStartStream st url b).1.status = .streaming
          ∧ CamOut.spawned ∉ (camStartStream st url b).2 := by
  refine ⟨camRun_procInv, ?_⟩
  intro st url b hs hu hm
  refine ⟨?_, ?_, ?_⟩ <;> simp [camStartStream, hs, hu, hm]

/-- Witness for C5 at an MJPEG URL from the constructor state. -/
theorem C5_process_only_when_transcoding_witness :
    (camStartStream camInit "http://cam/feed" true).1.process = false
    ∧ (camStartStream camInit "http://cam/feed" true).1.status = .streaming :=
  ⟨(C5_process_only_when_transcoding.2 camInit "http://cam/feed" true (by decide)
      (by decide) (by decide)).1,
   (C5_process_only_when_transcoding.2 camInit "http://cam/feed" true (by decide)
      (by decide) (by decide)).2.1⟩

/-- C7 counterexample: `startStream` with a non-empty, non-MJPEG url string
that is not a parseable URL reaches a state where the source URL was
successfully set but the derived audio URL is null, refuting the claimed
"audioUrl non-null iff a source URL was successfully set". -/
theorem C7_counterexample_url_set_audio_null :
    (camRun [.startStream "gibberish" true]).currentUrl = some "gibberish"
    ∧ (camRun [.startStream "gibberish" true]).audioUrl = none := by decide

/-- C7 (amended): in every reachable camera-session state the stored audio
URL equals the derivation from the current source URL, so it is non-null iff
a source URL was set from which an audio URL is derivable (the URL parses),
regardless of the session status. -/
theorem C7_audioUrl_is_derivation (evs : List CamEvent) :
    (camRun evs).audioUrl = ((camRun evs).currentUrl).bind deriveAudioUrl
    ∧ ((camRun evs).audioUrl ≠ none ↔
        ∃ u, (camRun evs).currentUrl = some u ∧ deriveAudioUrl u ≠ none) := by
  have h := camRun_audioInv evs
  rw [camAudioInv] at h
  refine ⟨h, ?_⟩
  rw [h]
  cases hc : (camRun evs).currentUrl <;> simp [hc]

/-- C6: while streaming, `_handleUnreachable` kills any active process,
clears the url/audio fields, stops the health-check timer and transitions
to idle (never error), emitting the idle status event and exactly one
health-check-failed event carrying the reason; when the session is not
streaming it is a no-op, so a second invocation after the first does
nothing. -/
theorem C6_unreachable_clean_idle (st : CamState) (reason : String) :
    (st.status = .streaming →
      camUnreachable st reason
        = (camInit, (if st.process then [CamOut.killed] else [])
            ++ [.statusEv .idle none none, .healthEv reason])
      ∧ (camUnreachable st reason).2.countP isHealthOut = 1
      ∧ camUnreachable (camUnreachable st reason).1 reason
          = ((camUnreachable st reason).1, []))
    ∧ (st.status ≠ .streaming → camUnreachable st reason = (st, [])) := by
  constructor
  · intro hs
    have h1 : camUnreachable st reason
        = (camInit, (if st.process then [CamOut.killed] else [])
            ++ [.statusEv .idle none none, .healthEv reason]) := by
      simp [camUnreachable, hs]
    refine ⟨h1, ?_, ?_⟩
    · rw [h1]
      by_cases hp : st.process = true <;>
        simp [hp, isHealthOut, List.countP_cons, List.countP_nil]
    · rw [h1]
      simp [camUnreachable, camInit]
  · intro hs
    simp [camUnreachable, hs]

/-- Witness for C6 at a concrete streaming state with a live process. -/
theorem C6_unreachable_clean_idle_witness :
    camUnreachable streamingState "Health check timed out"
      = (camInit, (if streamingState.process then [CamOut.killed] else [])
          ++ [.statusEv .idle none none, .healthEv "Health check timed out"]) :=
  ((C6_unreachable_clean_idle streamingState "Health check timed out").1 rfl).1

/-- C8: the dual-input handlers have no exactly-once guard: when the
process emits an error event and then a close event within one lifetime,
the terminal transition runs twice — status moves to error and then again
to idle, clearing the fields each time and emitting two terminal status
events after the single start attempt, contradicting the claimed
exactly-once behaviour. -/
theorem C8_error_then_close_double_terminal :
    (recDualRun (recSpawnState "rtsp://cam/live" "recording_a.mp4")
        [.stderrReady 5, .procError "boom", .procClose 1]).2
      = [.statusEv .recording none (some "recording_a.mp4") (some "rtsp://cam/live"),
         .resolvedRec true,
         .statusEv .error (some "boom") none none,
         .statusEv .idle none none none]
    ∧ ((recDualRun (recSpawnState "rtsp://cam/live" "recording_a.mp4")
        [.stderrReady 5, .procError "boom", .procClose 1]).2.countP
          isTerminalStatusEv) = 2 := by decide

/-- C4 counterexample: queried from Wednesday 15:00, the schedule
startTime 10:00 with days [wed] yields none — the following Wednesday sits
at day offset 7, beyond the 0..6 lookahead — not the following Wednesday
occurrence the claim asserts. -/
theorem C4_counterexample_wed_afternoon :
    getNextOccurrence wedSchedule ⟨3, 15 * 3600000⟩ = none
    ∧ getNextOccurrence wedSchedule ⟨3, 15 * 3600000⟩
        ≠ some ⟨3 + 7, 10 * 3600000⟩ := by decide

/-- C4 (amended): `_getNextOccurrence` examines exactly day offsets 0..6,
builds for each the candidate at that day's date with the schedule's
hour:minute, rejects candidates at or before fromInstant and candidates
whose weekday a non-empty day set excludes (an empty day set allows every
weekday), and returns the first surviving candidate in day-offset order or
none — stated as equality with the spec-side restatement; for the Wednesday
10:00/[wed] schedule: from Wednesday 08:00 the same-day 10:00 occurrence,
from Wednesday 15:00 none (the following Wednesday is at offset 7, outside
the window), and from Wednesday 23:59 none. -/
theorem C4_next_occurrence_first_of_seven (sched : Schedule) (now : Instant) :
    getNextOccurrence sched now = nextOccurrenceSpec sched now
    ∧ getNextOccurrence wedSchedule ⟨3, 8 * 3600000⟩ = some ⟨3, 10 * 3600000⟩
    ∧ getNextOccurrence wedSchedule ⟨3, 15 * 3600000⟩ = none
    ∧ getNextOccurrence wedSchedule ⟨3, 23 * 3600000 + 59 * 60000⟩ = none := by
  refine ⟨?_, by decide, by decide, by decide⟩
  unfold getNextOccurrence nextOccurrenceSpec
  cases hp : parseStartTime sched.startTime with
  | none => rfl
  | some hm =>
    obtain ⟨h, m⟩ := hm
    dsimp only
    rw [← findSome_guarded (candidateAt now h m) (specAccepts sched now h m)]
    congr 1
    funext k
    simp only [candidateAt, specAccepts, List.any_eq_true, decide_eq_true_eq,
      List.isEmpty_iff, Bool.and_eq_true, Bool.or_eq_true]
    by_cases h1 : Instant.toMs ⟨now.day + k, (h * 60 + m) * 60000⟩ ≤ now.toMs
    · simp [h1, Nat.not_lt.mpr h1]
    · by_cases h2 : dayName (now.day + k) ∈ sched.days
      · simp [h1, h2, Nat.not_le.mp h1]
      · by_cases h3 : sched.days = []
        · simp [h1, h2, h3, Nat.not_le.mp h1]
        · simp [h1, h2, h3, Nat.not_le.mp h1]
